import Mathlib

/-!
Verification of the MCP proxy module (`src/mcp/shared/proxy.py`).

The module exposes one operation, `mcp_proxy`, which starts two independent
forwarding tasks (client→server and server→client) in an anyio task group and
cancels both when the surrounding scope exits.  Each task runs
`forward_messages`, a loop that reads `SessionMessage | Exception` items from a
read stream, optionally applies an async transform hook, and sends the result
on a write stream, with a per-item try/except that reports failures to the
optional `onerror` callback and continues.

The embedding below is a direct translation of that loop.  Messages and error
values are opaque type parameters `μ` and `ε`.  Effects on the environment are
made explicit: sends attempted on the outbound stream, calls made to `onerror`,
and (for the frame property) a full effect trace.  Awaiting the transform hook
is modelled by its observable outcome (a message, `None`, or a raised
exception); awaiting a send is modelled by an oracle giving, per message, the
exception the send raises, or `none` on success.  The end of the inbound
`async for` iteration is one of: normal end of stream, `anyio.ClosedResourceError`
(caught silently, line 130), any other exception (caught and reported,
line 133), or cancellation of the task — the anyio cancellation exception
derives from `BaseException`, so neither `except Exception` clause catches it
and the loop ends silently.
-/

namespace MCPProxy

/-- An item delivered on an inbound read stream.  The stream's element type in
the source is `SessionMessage | Exception` (the `ReadStream` alias, line 33);
line 105 distinguishes the two cases with `isinstance(message, Exception)`. -/
inductive Item (μ ε : Type) where
  | msg : μ → Item μ ε
  | err : ε → Item μ ε
deriving DecidableEq, Repr

/-- Observable outcome of `await transform_fn(message)` (line 113): the hook
returns a message, returns `None` (drop, line 114), or raises (caught by the
per-item `except Exception`, line 124). -/
inductive TransformResult (μ ε : Type) where
  | ok : μ → TransformResult μ ε
  | dropped : TransformResult μ ε
  | failure : ε → TransformResult μ ε
deriving DecidableEq, Repr

/-- How the inbound `async for` iteration ends once the listed items have been
delivered: normal end of stream, `anyio.ClosedResourceError` raised by the
receive (line 130), another exception raised by the receive (line 133), or
cancellation of the task (a `BaseException`, caught by neither handler). -/
inductive StreamEnd (ε : Type) where
  | eos : StreamEnd ε
  | closed : StreamEnd ε
  | failed : ε → StreamEnd ε
  | cancelled : StreamEnd ε
deriving DecidableEq, Repr

/-- The observable result of one forwarding loop: the messages sent on the
outbound write stream, in order, and the arguments of the `onerror` calls, in
order. -/
structure LoopResult (μ ε : Type) where
  sent : List μ
  handlerCalls : List ε
deriving DecidableEq, Repr

/-- Sequential composition of loop results. -/
def LoopResult.app {μ ε : Type} (a b : LoopResult μ ε) : LoopResult μ ε :=
  ⟨a.sent ++ b.sent, a.handlerCalls ++ b.handlerCalls⟩

variable {μ ε : Type}

/-- One iteration of the loop body (lines 103–128).  `hasHandler` records
whether `onerror` was supplied (`if onerror:` guards every call).  An
`Exception` item is reported and skipped (lines 105–109).  With a transform:
a raise is caught and reported (lines 124–127), `None` drops the message
(lines 114–117), otherwise the transformed message is sent (line 119).
Without a transform the message is sent as-is (line 122).  A send that raises
is caught by the same per-item `except` and reported. -/
def processItem (hasHandler : Bool)
    (transform_fn : Option (μ → TransformResult μ ε))
    (send : μ → Option ε) : Item μ ε → LoopResult μ ε
  | .err e => ⟨[], if hasHandler then [e] else []⟩
  | .msg m =>
    match transform_fn with
    | some f =>
      match f m with
      | .failure exc => ⟨[], if hasHandler then [exc] else []⟩
      | .dropped => ⟨[], []⟩
      | .ok m1 =>
        match send m1 with
        | some exc => ⟨[], if hasHandler then [exc] else []⟩
        | none => ⟨[m1], []⟩
    | none =>
      match send m with
      | some exc => ⟨[], if hasHandler then [exc] else []⟩
      | none => ⟨[m], []⟩

/-- The `async for` body applied to each delivered item in order; the per-item
`except Exception ... # Continue forwarding other messages` (lines 124–128)
means every item is followed by the next. -/
def processItems (hasHandler : Bool)
    (transform_fn : Option (μ → TransformResult μ ε))
    (send : μ → Option ε) : List (Item μ ε) → LoopResult μ ε
  | [] => ⟨[], []⟩
  | it :: rest =>
    LoopResult.app (processItem hasHandler transform_fn send it)
      (processItems hasHandler transform_fn send rest)

/-- Effect of the way the iteration ends (lines 130–136): end of stream and
`ClosedResourceError` are silent; another receive exception is reported to
`onerror` once; cancellation derives from `BaseException` and is caught by
neither `except` clause, so it too produces no call. -/
def endResult (hasHandler : Bool) : StreamEnd ε → LoopResult μ ε
  | .eos => ⟨[], []⟩
  | .closed => ⟨[], []⟩
  | .failed e => ⟨[], if hasHandler then [e] else []⟩
  | .cancelled => ⟨[], []⟩

/-- The whole `forward_messages` coroutine (lines 94–136): process the
delivered items in order, then the ending of the iteration. -/
def forward_messages (hasHandler : Bool)
    (transform_fn : Option (μ → TransformResult μ ε))
    (send : μ → Option ε) (items : List (Item μ ε)) (ending : StreamEnd ε) :
    LoopResult μ ε :=
  LoopResult.app (processItems hasHandler transform_fn send items)
    (endResult hasHandler ending)

/-- Configuration of one proxy session (`mcp_proxy` arguments, lines 40–45):
whether `onerror` is supplied, the two optional transforms, and the send
oracles of the two write streams (`server_write` for the client→server
direction, `client_write` for the other). -/
structure ProxyConfig (μ ε : Type) where
  hasHandler : Bool
  on_client_message : Option (μ → TransformResult μ ε)
  on_server_message : Option (μ → TransformResult μ ε)
  sendServer : μ → Option ε
  sendClient : μ → Option ε

/-- One `mcp_proxy` session (lines 138–161): two independent forwarding tasks,
client_read→server_write with `on_client_message` and server_read→client_write
with `on_server_message`, each applied to the items its read stream delivered
before the task observed its ending.  When the caller leaves the scope,
`tg.cancel_scope.cancel()` (line 161) delivers cancellation at each task's next
suspension point; that run is represented by passing the items received before
that point and `StreamEnd.cancelled`. -/
def mcp_proxy (cfg : ProxyConfig μ ε)
    (clientItems serverItems : List (Item μ ε))
    (endC endS : StreamEnd ε) : LoopResult μ ε × LoopResult μ ε :=
  (forward_messages cfg.hasHandler cfg.on_client_message cfg.sendServer
      clientItems endC,
   forward_messages cfg.hasHandler cfg.on_server_message cfg.sendClient
      serverItems endS)

/-- Every operation a forwarding loop performs on its environment.  The two
closing effects exist in the vocabulary so that the frame property "the loop
never closes either stream" is a statement about the trace and not an artefact
of the model: the source contains no `aclose` call on either stream and the
translation therefore never emits them. -/
inductive Effect (μ ε : Type) where
  | recv : Item μ ε → Effect μ ε
  | sendMsg : μ → Effect μ ε
  | callHandler : ε → Effect μ ε
  | closeRead : Effect μ ε
  | closeWrite : Effect μ ε
deriving DecidableEq, Repr

/-- Whether an effect is one of the three operations the loop is allowed to
perform: reading the inbound stream, sending on the outbound stream, or
invoking `onerror`. -/
def Effect.isAllowedOp : Effect μ ε → Bool
  | .recv _ => true
  | .sendMsg _ => true
  | .callHandler _ => true
  | .closeRead => false
  | .closeWrite => false

/-- The effects one iteration of the loop body performs, in order: the receive
that produced the item, then the sends and handler calls of lines 103–128.  A
send that raises is still an operation on the write stream and is recorded
before the resulting handler call. -/
def itemTrace (hasHandler : Bool)
    (transform_fn : Option (μ → TransformResult μ ε))
    (send : μ → Option ε) : Item μ ε → List (Effect μ ε)
  | .err e => .recv (.err e) :: (if hasHandler then [.callHandler e] else [])
  | .msg m =>
    .recv (.msg m) ::
      (match transform_fn with
       | some f =>
         match f m with
         | .failure exc => if hasHandler then [.callHandler exc] else []
         | .dropped => []
         | .ok m1 =>
           .sendMsg m1 ::
             (match send m1 with
              | some exc => if hasHandler then [.callHandler exc] else []
              | none => [])
       | none =>
         .sendMsg m ::
           (match send m with
            | some exc => if hasHandler then [.callHandler exc] else []
            | none => []))

/-- The effects of the ending of the iteration (lines 130–136). -/
def endTrace (hasHandler : Bool) : StreamEnd ε → List (Effect μ ε)
  | .eos => []
  | .closed => []
  | .failed e => if hasHandler then [.callHandler e] else []
  | .cancelled => []

/-- The full effect trace of one `forward_messages` run. -/
def forward_trace (hasHandler : Bool)
    (transform_fn : Option (μ → TransformResult μ ε))
    (send : μ → Option ε) (items : List (Item μ ε)) (ending : StreamEnd ε) :
    List (Effect μ ε) :=
  (items.flatMap (itemTrace hasHandler transform_fn send)) ++
    endTrace hasHandler ending

/-- The effect traces of a whole session, one per direction (their
interleaving is arbitrary; each stream is touched by exactly one of the two
tasks, so per-stream effects are exactly one of these lists). -/
def mcp_proxy_trace (cfg : ProxyConfig μ ε)
    (clientItems serverItems : List (Item μ ε))
    (endC endS : StreamEnd ε) : List (Effect μ ε) × List (Effect μ ε) :=
  (forward_trace cfg.hasHandler cfg.on_client_message cfg.sendServer
      clientItems endC,
   forward_trace cfg.hasHandler cfg.on_server_message cfg.sendClient
      serverItems endS)

/-! ### Basic lemmas about the loop -/

theorem LoopResult.app_nil (a : LoopResult μ ε) :
    LoopResult.app a ⟨[], []⟩ = a := by
  simp [LoopResult.app]

theorem LoopResult.nil_app (a : LoopResult μ ε) :
    LoopResult.app (⟨[], []⟩ : LoopResult μ ε) a = a := by
  simp [LoopResult.app]

theorem LoopResult.app_assoc (a b c : LoopResult μ ε) :
    LoopResult.app (LoopResult.app a b) c
      = LoopResult.app a (LoopResult.app b c) := by
  simp [LoopResult.app]

theorem processItems_append (hasHandler : Bool)
    (transform_fn : Option (μ → TransformResult μ ε)) (send : μ → Option ε)
    (xs ys : List (Item μ ε)) :
    processItems hasHandler transform_fn send (xs ++ ys)
      = LoopResult.app (processItems hasHandler transform_fn send xs)
          (processItems hasHandler transform_fn send ys) := by
  induction xs with
  | nil => simp [processItems, LoopResult.nil_app]
  | cons it rest ih =>
      simp [processItems, ih, LoopResult.app_assoc]

theorem forward_messages_cons (hasHandler : Bool)
    (transform_fn : Option (μ → TransformResult μ ε)) (send : μ → Option ε)
    (it : Item μ ε) (rest : List (Item μ ε)) (ending : StreamEnd ε) :
    forward_messages hasHandler transform_fn send (it :: rest) ending
      = LoopResult.app (processItem hasHandler transform_fn send it)
          (forward_messages hasHandler transform_fn send rest ending) := by
  simp [forward_messages, processItems, LoopResult.app_assoc]

theorem processItems_map_msg (hasHandler : Bool) (send : μ → Option ε)
    (ms : List μ) (hsend : ∀ m ∈ ms, send m = none) :
    processItems hasHandler none send (ms.map Item.msg) = ⟨ms, []⟩ := by
  induction ms with
  | nil => rfl
  | cons m rest ih =>
      have hm : send m = none := hsend m (by simp)
      have ih2 := ih (fun x hx => hsend x (by simp [hx]))
      simp [processItems, processItem, hm, ih2, LoopResult.app]

theorem itemTrace_allowed (hasHandler : Bool)
    (transform_fn : Option (μ → TransformResult μ ε)) (send : μ → Option ε)
    (it : Item μ ε) :
    (itemTrace hasHandler transform_fn send it).all Effect.isAllowedOp
      = true := by
  cases it with
  | err e => cases hasHandler <;> simp [itemTrace, Effect.isAllowedOp]
  | msg m =>
      cases transform_fn with
      | none =>
          cases hs : send m <;> cases hasHandler <;>
            simp [itemTrace, Effect.isAllowedOp, hs]
      | some f =>
          cases hf : f m with
          | ok m1 =>
              cases hs : send m1 <;> cases hasHandler <;>
                simp [itemTrace, Effect.isAllowedOp, hf, hs]
          | dropped => simp [itemTrace, Effect.isAllowedOp, hf]
          | failure exc =>
              cases hasHandler <;> simp [itemTrace, Effect.isAllowedOp, hf]

theorem forward_trace_allowed (hasHandler : Bool)
    (transform_fn : Option (μ → TransformResult μ ε)) (send : μ → Option ε)
    (items : List (Item μ ε)) (ending : StreamEnd ε) :
    (forward_trace hasHandler transform_fn send items ending).all
      Effect.isAllowedOp = true := by
  induction items with
  | nil =>
      cases ending <;> cases hasHandler <;>
        simp [forward_trace, endTrace, Effect.isAllowedOp]
  | cons it rest ih =>
      have hit := itemTrace_allowed hasHandler transform_fn send it
      simp only [forward_trace, List.flatMap_cons, List.append_assoc,
        List.all_append] at ih ⊢
      rw [hit, Bool.true_and, ih]

/-! ### The claims -/

/-- C1: for one direction's forwarding loop with no transform hook configured,
for every finite sequence of messages delivered on the inbound stream, with no
transport errors and no send failures, exactly those messages are sent on the
outbound stream, in the same order, and the error handler is never invoked. -/
theorem c1_order_preservation (hasHandler : Bool) (send : μ → Option ε)
    (ms : List μ) (hsend : ∀ m ∈ ms, send m = none) :
    forward_messages hasHandler none send (ms.map Item.msg) .eos
      = ⟨ms, []⟩ := by
  simp [forward_messages, processItems_map_msg hasHandler send ms hsend,
    endResult, LoopResult.app_nil]

/-- C1 witness: the concrete run [1, 2, 3] with a handler configured. -/
theorem c1_order_preservation_witness :
    forward_messages true none (fun _ : Nat => (none : Option Nat))
        ([1, 2, 3].map Item.msg) .eos = ⟨[1, 2, 3], []⟩ :=
  c1_order_preservation true _ [1, 2, 3] (fun _ _ => rfl)

/-- C2: an inbound item that is a transport error is reported to the error
handler exactly once when one is configured and absorbed silently otherwise,
is never sent on the outbound stream, and the messages before and after it are
still forwarded in order. -/
theorem c2_transport_error (hasHandler : Bool) (send : μ → Option ε) (e : ε)
    (pre post : List μ)
    (hpre : ∀ m ∈ pre, send m = none) (hpost : ∀ m ∈ post, send m = none) :
    forward_messages hasHandler none send
        (pre.map Item.msg ++ Item.err e :: post.map Item.msg) .eos
      = ⟨pre ++ post, if hasHandler then [e] else []⟩ := by
  simp [forward_messages, processItems_append, processItems, processItem,
    processItems_map_msg hasHandler send pre hpre,
    processItems_map_msg hasHandler send post hpost,
    endResult, LoopResult.app]

/-- C2 witness: [1, err 7, 2] with a handler, and the same without one. -/
theorem c2_transport_error_witness :
    forward_messages true none (fun _ : Nat => (none : Option Nat))
        ([1].map Item.msg ++ Item.err 7 :: [2].map Item.msg) .eos
      = ⟨[1, 2], [7]⟩ := by
  have h := c2_transport_error true (fun _ : Nat => (none : Option Nat)) 7
    [1] [2] (fun _ _ => rfl) (fun _ _ => rfl)
  simpa using h

/-- C3: a message the configured transform hook maps to `None` is never sent,
produces no error-handler call, and leaves the processing of the remaining
items exactly as it would have been without that message. -/
theorem c3_transform_drop (hasHandler : Bool)
    (f : μ → TransformResult μ ε) (send : μ → Option ε) (M : μ)
    (rest : List (Item μ ε)) (ending : StreamEnd ε)
    (hdrop : f M = .dropped) :
    forward_messages hasHandler (some f) send (Item.msg M :: rest) ending
      = forward_messages hasHandler (some f) send rest ending := by
  simp [forward_messages_cons, processItem, hdrop, LoopResult.nil_app]

/-- C3 witness: a transform dropping 5 and keeping everything else. -/
theorem c3_transform_drop_witness :
    forward_messages true
        (some fun n : Nat =>
          if n = 5 then TransformResult.dropped else TransformResult.ok n)
        (fun _ : Nat => (none : Option Nat))
        (Item.msg 5 :: [Item.msg 6]) .eos
      = forward_messages true
          (some fun n : Nat =>
            if n = 5 then TransformResult.dropped else TransformResult.ok n)
          (fun _ : Nat => (none : Option Nat)) [Item.msg 6] .eos :=
  c3_transform_drop true _ _ 5 [Item.msg 6] .eos rfl

/-- C4: when the configured transform hook maps message M to message M1, the
value sent on the outbound stream for that item is M1, regardless of M. -/
theorem c4_transform_replace (hasHandler : Bool)
    (f : μ → TransformResult μ ε) (send : μ → Option ε) (M M1 : μ)
    (rest : List (Item μ ε)) (ending : StreamEnd ε)
    (hok : f M = .ok M1) (hsend : send M1 = none) :
    forward_messages hasHandler (some f) send (Item.msg M :: rest) ending
      = ⟨M1 :: (forward_messages hasHandler (some f) send rest ending).sent,
         (forward_messages hasHandler (some f) send rest ending).handlerCalls⟩ := by
  simp [forward_messages_cons, processItem, hok, hsend, LoopResult.app]

/-- C4 witness: a transform replacing 5 by 50; the outbound stream gets 50. -/
theorem c4_transform_replace_witness :
    forward_messages true
        (some fun n : Nat =>
          if n = 5 then TransformResult.ok 50 else TransformResult.ok n)
        (fun _ : Nat => (none : Option Nat)) (Item.msg 5 :: []) .eos
      = ⟨50 :: (forward_messages true
            (some fun n : Nat =>
              if n = 5 then TransformResult.ok 50 else TransformResult.ok n)
            (fun _ : Nat => (none : Option Nat)) [] .eos).sent,
         (forward_messages true
            (some fun n : Nat =>
              if n = 5 then TransformResult.ok 50 else TransformResult.ok n)
            (fun _ : Nat => (none : Option Nat)) [] .eos).handlerCalls⟩ :=
  c4_transform_replace true _ _ 5 50 [] .eos rfl rfl

/-- C5: when the configured transform hook raises on message M, the exception
is reported to the error handler when one is configured (and absorbed
otherwise), nothing is sent for that item — in particular not the original
M — and the remaining items are processed as usual. -/
theorem c5_transform_failure (hasHandler : Bool)
    (f : μ → TransformResult μ ε) (send : μ → Option ε) (M : μ) (exc : ε)
    (rest : List (Item μ ε)) (ending : StreamEnd ε)
    (hfail : f M = .failure exc) :
    forward_messages hasHandler (some f) send (Item.msg M :: rest) ending
      = ⟨(forward_messages hasHandler (some f) send rest ending).sent,
         (if hasHandler then [exc] else []) ++
           (forward_messages hasHandler (some f) send rest ending).handlerCalls⟩ := by
  simp [forward_messages_cons, processItem, hfail, LoopResult.app]

/-- C5 witness: a transform raising 99 on 5; 99 is reported, 5 is not sent,
6 is still forwarded. -/
theorem c5_transform_failure_witness :
    forward_messages true
        (some fun n : Nat =>
          if n = 5 then TransformResult.failure 99 else TransformResult.ok n)
        (fun _ : Nat => (none : Option Nat))
        (Item.msg 5 :: [Item.msg 6]) .eos
      = ⟨(forward_messages true
            (some fun n : Nat =>
              if n = 5 then TransformResult.failure 99 else TransformResult.ok n)
            (fun _ : Nat => (none : Option Nat)) [Item.msg 6] .eos).sent,
         (if true then [99] else []) ++
           (forward_messages true
              (some fun n : Nat =>
                if n = 5 then TransformResult.failure 99 else TransformResult.ok n)
              (fun _ : Nat => (none : Option Nat)) [Item.msg 6] .eos).handlerCalls⟩ :=
  c5_transform_failure true _ _ 5 99 [Item.msg 6] .eos rfl

/-- C6: a send on the outbound stream that raises is reported to the error
handler when one is configured (absorbed otherwise) and the loop continues
with the remaining items until the stream itself ends — both when no transform
is configured and when the configured transform produced the message whose
send raised. -/
theorem c6_send_failure (hasHandler : Bool) (send : μ → Option ε)
    (M : μ) (exc : ε) (rest : List (Item μ ε)) (ending : StreamEnd ε)
    (hsend : send M = some exc) :
    (forward_messages hasHandler none send (Item.msg M :: rest) ending
      = ⟨(forward_messages hasHandler none send rest ending).sent,
         (if hasHandler then [exc] else []) ++
           (forward_messages hasHandler none send rest ending).handlerCalls⟩) ∧
    (∀ f : μ → TransformResult μ ε, ∀ M0 : μ, f M0 = .ok M →
      forward_messages hasHandler (some f) send (Item.msg M0 :: rest) ending
        = ⟨(forward_messages hasHandler (some f) send rest ending).sent,
           (if hasHandler then [exc] else []) ++
             (forward_messages hasHandler (some f) send rest ending).handlerCalls⟩) := by
  constructor
  · simp [forward_messages_cons, processItem, hsend, LoopResult.app]
  · intro f M0 hok
    simp [forward_messages_cons, processItem, hok, hsend, LoopResult.app]

/-- C6 witness: the send of 5 raises 9; 9 is reported and 6 is still
forwarded. -/
theorem c6_send_failure_witness :
    forward_messages true none (fun n : Nat => if n = 5 then some 9 else none)
        (Item.msg 5 :: [Item.msg 6]) .eos = ⟨[6], [9]⟩ := by
  have h := (c6_send_failure true
    (fun n : Nat => if n = 5 then some 9 else none) 5 9 [Item.msg 6] .eos rfl).1
  rw [h]
  decide

/-- C7: when the inbound iteration ends by end-of-stream, or by
`ClosedResourceError` raised by the receive, the loop terminates with exactly
the sends and error-handler calls of the delivered items: termination itself
is silent and reported to no one. -/
theorem c7_stream_closure_silent (hasHandler : Bool)
    (transform_fn : Option (μ → TransformResult μ ε)) (send : μ → Option ε)
    (items : List (Item μ ε)) :
    forward_messages hasHandler transform_fn send items .eos
      = processItems hasHandler transform_fn send items ∧
    forward_messages hasHandler transform_fn send items .closed
      = processItems hasHandler transform_fn send items := by
  constructor <;> simp [forward_messages, endResult, LoopResult.app_nil]

/-- C8: in a session cancelled after each direction had received its first
`kC` (respectively `kS`) items, items still buffered in either inbound stream
beyond that point change nothing — no further send occurs for them — and the
cancelled runs consist of exactly the effects of the items processed before
cancellation: the cancellation itself is reported to no error handler. -/
theorem c8_cancellation_complete (cfg : ProxyConfig μ ε)
    (itemsC itemsS bufC bufS : List (Item μ ε)) (kC kS : Nat)
    (hkC : kC ≤ itemsC.length) (hkS : kS ≤ itemsS.length) :
    mcp_proxy cfg ((itemsC ++ bufC).take kC) ((itemsS ++ bufS).take kS)
        .cancelled .cancelled
      = mcp_proxy cfg (itemsC.take kC) (itemsS.take kS)
          .cancelled .cancelled ∧
    mcp_proxy cfg (itemsC.take kC) (itemsS.take kS) .cancelled .cancelled
      = (processItems cfg.hasHandler cfg.on_client_message cfg.sendServer
           (itemsC.take kC),
         processItems cfg.hasHandler cfg.on_server_message cfg.sendClient
           (itemsS.take kS)) := by
  constructor
  · rw [List.take_append_of_le_length hkC, List.take_append_of_le_length hkS]
  · simp [mcp_proxy, forward_messages, endResult, LoopResult.app_nil]

/-- C8 witness: one item processed per direction before cancellation, with a
further message buffered on the client side. -/
theorem c8_cancellation_complete_witness :
    mcp_proxy (⟨true, none, none, fun _ => none, fun _ => none⟩ :
          ProxyConfig Nat Nat)
        (([Item.msg 1] ++ [Item.msg 3]).take 1) (([Item.err 2] ++ []).take 1)
        .cancelled .cancelled
      = mcp_proxy ⟨true, none, none, fun _ => none, fun _ => none⟩
          ([Item.msg 1].take 1) ([Item.err 2].take 1) .cancelled .cancelled :=
  (c8_cancellation_complete _ [Item.msg 1] [Item.err 2] [Item.msg 3] [] 1 1
    (by decide) (by decide)).1

/-- C9: every effect either direction of a session performs over its whole
lifetime is a read of its inbound stream, a send on its outbound stream, or a
call of the error handler — in particular neither of the four streams is ever
closed by the session. -/
theorem c9_never_closes (cfg : ProxyConfig μ ε)
    (clientItems serverItems : List (Item μ ε)) (endC endS : StreamEnd ε) :
    ((mcp_proxy_trace cfg clientItems serverItems endC endS).1.all
        Effect.isAllowedOp = true) ∧
    ((mcp_proxy_trace cfg clientItems serverItems endC endS).2.all
        Effect.isAllowedOp = true) := by
  constructor <;>
    exact forward_trace_allowed _ _ _ _ _

/-- C10: when the receive on one direction's inbound stream raises an
exception that is not `ClosedResourceError`, that direction reports it to the
error handler exactly once when one is configured (and absorbs it otherwise)
and then terminates with nothing further sent, while the other direction's
run is exactly what it would have been had the first ended normally. -/
theorem c10_receive_failure (cfg : ProxyConfig μ ε)
    (clientItems serverItems : List (Item μ ε)) (e : ε) (endS : StreamEnd ε) :
    (mcp_proxy cfg clientItems serverItems (.failed e) endS).1
      = LoopResult.app
          (processItems cfg.hasHandler cfg.on_client_message cfg.sendServer
            clientItems)
          ⟨[], if cfg.hasHandler then [e] else []⟩ ∧
    (mcp_proxy cfg clientItems serverItems (.failed e) endS).2
      = (mcp_proxy cfg clientItems serverItems .eos endS).2 := by
  constructor <;> simp [mcp_proxy, forward_messages, endResult]

end MCPProxy
